import Mathlib

/-!
Verification development for the dcmjs-dimse client core.

The repository source under scrutiny is `src/Client.js`, the DIMSE SCU
client: it accumulates requests and additional presentation contexts,
and `send` builds an `Association` from them, wires network event
handlers and connects.  The `Association`/`PresentationContext` classes
themselves (file `Association.js`) are not part of the provided sources
(only their tests and their caller `Client.js` are), so their operations
are modelled from the specification, section 4.2 ("Association — context
allocation algorithm"); each such definition carries a doc comment
starting with "Modelled from the spec:".  Where the repository's frozen
Association tests (which ARE part of the sources) contradict the
specification's words — the C-STORE test shows store requests match per
(SOP class, transfer syntax) pair rather than merging per SOP class —
the tests take precedence and the divergence is recorded on the
definition.

Everything is a shallow embedding: JavaScript objects become Lean
structures, thrown exceptions become `Except`, the event-handler wiring
of `send` becomes a record of the actions the handlers would perform.
-/

namespace Dcm

/-- Modelled from the spec: a `PresentationContext` binds one abstract
syntax to an ordered list of proposed transfer syntaxes
(`Association.js` is absent from the sources; spec section 3).  The
negotiation-result fields are not modelled because no claim touches
them. -/
structure PresentationContext where
  id : Nat
  abstractSyntaxUid : String
  transferSyntaxUids : List String
deriving DecidableEq, Repr

/-- Modelled from the spec: `addTransferSyntax(uid)` appends if not
already present; no-op on duplicate (spec section 4.1). -/
def PresentationContext.addTransferSyntax (pc : PresentationContext) (ts : String) :
    PresentationContext :=
  if ts ∈ pc.transferSyntaxUids then pc
  else { pc with transferSyntaxUids := pc.transferSyntaxUids ++ [ts] }

/-- Modelled from the spec: the `Association` negotiation ledger — peer
titles fixed at construction plus the ordered collection of
presentation contexts (spec section 3). -/
structure Association where
  callingAeTitle : String
  calledAeTitle : String
  presentationContexts : List PresentationContext
deriving DecidableEq, Repr

/-- Modelled from the spec: a fresh association holds no presentation
contexts. -/
def Association.init (callingAeTitle calledAeTitle : String) : Association :=
  ⟨callingAeTitle, calledAeTitle, []⟩

/-- Modelled from the spec: the next odd presentation-context id — ids
are odd and strictly increasing in allocation order (spec section 3
invariant), so the n-th allocation gets id 2*n+1. -/
def Association.nextPcId (a : Association) : Nat :=
  2 * a.presentationContexts.length + 1

/-- Modelled from the spec: `addPresentationContext(abstractSyntaxUid)`
always allocates a new context with the next odd id, starting with an
empty transfer-syntax list (spec sections 4.1 and 4.2). -/
def Association.addPresentationContext (a : Association) (uid : String) :
    Nat × Association :=
  let pcId := a.nextPcId
  (pcId, { a with presentationContexts :=
      a.presentationContexts ++ [⟨pcId, uid, []⟩] })

/-- Modelled from the spec: the scan used by the allocation algorithm —
first existing context whose `abstractSyntaxUid` matches exactly (spec
section 4.2). -/
def Association.findContextByAbstractSyntax (a : Association) (uid : String) :
    Option PresentationContext :=
  a.presentationContexts.find? (fun pc => pc.abstractSyntaxUid == uid)

/-- Modelled from the spec:
`addOrGetPresentationContext(abstractSyntaxUid)` scans existing
contexts for one whose `abstractSyntaxUid` matches exactly; returns its
id if found, otherwise allocates a new one (spec section 4.2). -/
def Association.addOrGetPresentationContext (a : Association) (uid : String) :
    Nat × Association :=
  match a.findContextByAbstractSyntax uid with
  | some pc => (pc.id, a)
  | none => a.addPresentationContext uid

/-- Modelled from the spec: `addTransferSyntaxToPresentationContext`
appends a transfer syntax to the proposal list of the context with the
given id (duplicates are no-ops, per `addTransferSyntax`). -/
def Association.addTransferSyntaxToPresentationContext (a : Association)
    (pcId : Nat) (ts : String) : Association :=
  let update := fun pc => if pc.id == pcId then pc.addTransferSyntax ts else pc
  { a with presentationContexts := a.presentationContexts.map update }

/-- Modelled from the spec: the per-abstract-syntax step used by the
retrieve path only — extensionally `addOrGetPresentationContext`
followed by `addTransferSyntaxToPresentationContext`: if a context with
the same abstract syntax exists, reuse its id (appending the transfer
syntax when it is new); otherwise allocate a new context seeded with
the transfer syntax (spec section 4.2, corroborated at the set level by
the C-GET test).  Store requests do NOT go through this step: the
C-STORE test shows they match on the (abstract syntax, transfer syntax)
pair, see `findContextForStore`. -/
def Association.addPresentationContextPair (a : Association) (uid ts : String) :
    Nat × Association :=
  match a.findContextByAbstractSyntax uid with
  | some pc =>
    if ts ∈ pc.transferSyntaxUids then (pc.id, a)
    else (pc.id, a.addTransferSyntaxToPresentationContext pc.id ts)
  | none =>
    let r := a.addPresentationContext uid
    (r.1, r.2.addTransferSyntaxToPresentationContext r.1 ts)

/-- Modelled from the spec: the request payloads relevant to
negotiation — a store request carries its SOP class and the transfer
syntax of its dataset; a retrieve-style (C-GET) request carries its
query/retrieve model UID and implies one additional context per
registered storage class (spec section 4.2 step 1).  `store` covers
C-STORE, `retrieve` covers C-GET; the claims touch no other request
kind. -/
inductive Request where
  | store (abstractSyntaxUid transferSyntaxUid : String)
  | retrieve (abstractSyntaxUid transferSyntaxUid : String)
deriving DecidableEq, Repr

/-- Modelled from the spec: the abstract syntax a request itself
negotiates (its SOP class or query/retrieve model UID). -/
def Request.abstractSyntaxUid : Request → String
  | .store uid _ => uid
  | .retrieve uid _ => uid

/-- Modelled from the spec and the repository's frozen C-STORE test:
the context scan used for store requests matches on the pair — same
abstract syntax AND the dataset transfer syntax already among the
proposals (JavaScript `includes`).  The spec's section 4.2 words say
matching is solely on the abstract syntax, but the in-repo test
(src lines 265-306) asserts that a store request whose dataset uses a
transfer syntax not yet proposed for its SOP class gets a NEW context
id, so the test's pair matching is what is modelled here. -/
def Association.findContextForStore (a : Association) (uid ts : String) :
    Option PresentationContext :=
  a.presentationContexts.find?
    (fun pc => pc.abstractSyntaxUid == uid && pc.transferSyntaxUids.contains ts)

/-- Modelled from the spec and the repository's frozen C-STORE test:
`addPresentationContextFromRequest(request)`.  For a store request,
scan for a context already proposing the (SOP class, dataset transfer
syntax) pair — reuse its id when found, otherwise allocate a new
context seeded with the dataset transfer syntax (per the test, src
lines 244-325: a new transfer syntax for an already-proposed SOP class
gets a new context, never a merge).  For a retrieve-style request,
process one context per registered storage class (in registry order) as
side effects and return the id of the context for the request's own
model UID (spec section 4.2 steps 1-3, corroborated by the C-GET test).
The storage-class registry is injected as a parameter (spec section 9
design note). -/
def Association.addPresentationContextFromRequest (registry : List String)
    (a : Association) : Request → Nat × Association
  | .store uid ts =>
    match a.findContextForStore uid ts with
    | some pc => (pc.id, a)
    | none =>
      let r := a.addPresentationContext uid
      (r.1, r.2.addTransferSyntaxToPresentationContext r.1 ts)
  | .retrieve uid ts =>
    let a1 := registry.foldl
      (fun acc sc => (acc.addPresentationContextPair sc ts).2) a
    a1.addPresentationContextPair uid ts

/-- Modelled from the spec: `getPresentationContext(id)` fails with
`NotFoundError` if no context with that id exists (spec section 4.2). -/
def Association.getPresentationContext (a : Association) (pcId : Nat) :
    Except String PresentationContext :=
  match a.presentationContexts.find? (fun pc => pc.id == pcId) with
  | some pc => Except.ok pc
  | none => Except.error "NotFoundError"

/-- A `Request` instance as a JavaScript object: `oid` stands for the
object's identity (JavaScript `includes` compares with reference
equality), `req` for its negotiation-relevant payload. -/
structure RequestObj where
  oid : Nat
  req : Request
deriving DecidableEq, Repr

/-- A `PresentationContext` instance handed to
`addAdditionalPresentationContext`: identity plus the data `send` reads
back through `getAbstractSyntaxUid()` and `getTransferSyntaxUids()`. -/
structure PresentationContextObj where
  oid : Nat
  abstractSyntaxUid : String
  transferSyntaxUids : List String
deriving DecidableEq, Repr

/-- The JavaScript values a caller can pass to `addRequest` /
`addAdditionalPresentationContext`: nullish values, instances of the
two expected classes, or some other object with a `toString`. -/
inductive JsValue where
  | jsNull
  | jsUndefined
  | requestInstance (r : RequestObj)
  | contextInstance (p : PresentationContextObj)
  | otherObject (s : String)
deriving DecidableEq, Repr

/-- Errors a call can throw: `typeError` for runtime faults raised by
the JavaScript engine itself (such as a property access on null),
`thrownError` for `throw new Error(msg)` written in the code. -/
inductive JsError where
  | typeError (msg : String)
  | thrownError (msg : String)
deriving DecidableEq, Repr

/-- Evaluation of `v.toString()`: on `null`/`undefined` the property
access itself throws a `TypeError`; every proper object yields a
string. -/
def JsValue.toStringJs : JsValue → Except JsError String
  | .jsNull => Except.error (.typeError "Cannot read properties of null, reading toString")
  | .jsUndefined => Except.error (.typeError "Cannot read properties of undefined, reading toString")
  | .requestInstance _ => Except.ok "object Request"
  | .contextInstance _ => Except.ok "object PresentationContext"
  | .otherObject s => Except.ok s

/-- The `Client` state (`Client.js` constructor): `requests` and
`additionalPresentationContexts` start empty;
`associationLingerTimeout` is `undefined` (`none`) until `send` assigns
it. -/
structure Client where
  requests : List RequestObj
  additionalPresentationContexts : List PresentationContextObj
  associationLingerTimeout : Option Nat
deriving DecidableEq, Repr

/-- A freshly constructed `Client`. -/
def Client.new : Client := ⟨[], [], none⟩

/-- The `addRequest` method (`Client.js` lines 27-37): if the argument
is not a `Request` instance, throw an `Error` whose message embeds
`request.toString()`; a duplicate is silently skipped; otherwise the
request is pushed. -/
def Client.addRequest (c : Client) (v : JsValue) : Except JsError Client :=
  match v with
  | .requestInstance r =>
    if r ∈ c.requests then Except.ok c
    else Except.ok { c with requests := c.requests ++ [r] }
  | _ =>
    match v.toStringJs with
    | Except.ok s => Except.error (.thrownError (s ++ " is not a request."))
    | Except.error e => Except.error e

/-- The `clearRequests` method (`Client.js` lines 43-45). -/
def Client.clearRequests (c : Client) : Client :=
  { c with requests := [] }

/-- The `addAdditionalPresentationContext` method (`Client.js` lines
53-63): same shape as `addRequest` with the `PresentationContext`
instance check. -/
def Client.addAdditionalPresentationContext (c : Client) (v : JsValue) :
    Except JsError Client :=
  match v with
  | .contextInstance p =>
    if p ∈ c.additionalPresentationContexts then Except.ok c
    else Except.ok { c with additionalPresentationContexts :=
        c.additionalPresentationContexts ++ [p] }
  | _ =>
    match v.toStringJs with
    | Except.ok s => Except.error (.thrownError (s ++ " is not a presentation context."))
    | Except.error e => Except.error e

/-- The options object accepted by `send` (`Client.js` lines 72-78);
`none` models an absent (`undefined`) field. -/
structure SendOpts where
  connectTimeout : Option Nat := none
  associationTimeout : Option Nat := none
  pduTimeout : Option Nat := none
  associationLingerTimeout : Option Nat := none
deriving DecidableEq, Repr

/-- JavaScript `x || 0` on an optional number: `undefined` and `0` are
falsy and give `0`; any other number is returned unchanged. -/
def jsOrZero : Option Nat → Nat
  | some n => n
  | none => 0

/-- The network actions a `send`-installed handler can schedule; only
the release request scheduled by the `done` handler matters to the
claims. -/
inductive NetAction where
  | sendAssociationReleaseRequest
deriving DecidableEq, Repr

/-- The synchronous outcome of a successful `send` call: the mutated
client, the association built from the queued requests and additional
contexts, the socket connect target, and the `done` handler's
`setTimeout` wiring (delay in milliseconds plus scheduled action,
`Client.js` lines 124-126). -/
structure SendOk where
  client : Client
  association : Association
  connectHost : String
  connectPort : Nat
  doneLingerDelay : Nat
  doneAction : NetAction
deriving DecidableEq, Repr

/-- The body of the additional-presentation-context loop of `send`
(`Client.js` lines 97-103): look up or allocate the context for the
abstract syntax of the caller-declared context, then add each of its
transfer syntaxes to that context. -/
def Association.proposeAdditionalContext (a : Association)
    (ctx : PresentationContextObj) : Association :=
  let pr := a.addOrGetPresentationContext ctx.abstractSyntaxUid
  ctx.transferSyntaxUids.foldl
    (fun a2 ts => a2.addTransferSyntaxToPresentationContext pr.1 ts) pr.2

/-- The `send` method (`Client.js` lines 81-144), shallowly embedded up
to its synchronous effects: assign `associationLingerTimeout` from the
options (`|| 0`), throw when the request queue is empty, build the
association by feeding every queued request through
`addPresentationContextFromRequest` and every additional context
through `addOrGetPresentationContext` plus
`addTransferSyntaxToPresentationContext`, then connect.  The
storage-class registry used by retrieve-style requests is injected as a
parameter. -/
def Client.send (registry : List String) (c : Client) (host : String) (port : Nat)
    (callingAeTitle calledAeTitle : String) (opts : SendOpts) :
    Except JsError SendOk :=
  let lingerTimeout := jsOrZero opts.associationLingerTimeout
  let c1 : Client := { c with associationLingerTimeout := some lingerTimeout }
  if c1.requests.length = 0 then
    Except.error (.thrownError "There are no requests to perform.")
  else
    let assoc0 := Association.init callingAeTitle calledAeTitle
    let assoc1 := c1.requests.foldl
      (fun acc r => (acc.addPresentationContextFromRequest registry r.req).2) assoc0
    let assoc2 := c1.additionalPresentationContexts.foldl
      Association.proposeAdditionalContext assoc1
    Except.ok
      { client := c1
        association := assoc2
        connectHost := host
        connectPort := port
        doneLingerDelay := lingerTimeout
        doneAction := .sendAssociationReleaseRequest }

/-- A concrete C-STORE request object (CT Image Storage proposed with
Implicit VR Little Endian), used to evaluate the model at concrete
inputs. -/
def rEx : RequestObj := ⟨1, .store "1.2.840.10008.5.1.4.1.1.2" "1.2.840.10008.1.2"⟩

/-- A concrete caller-declared presentation context sharing `rEx`'s
abstract syntax but proposing a different transfer syntax. -/
def pcEx : PresentationContextObj :=
  ⟨2, "1.2.840.10008.5.1.4.1.1.2", ["1.2.840.10008.1.2.1"]⟩

/-- A concrete client holding `rEx` and `pcEx`. -/
def clientEx : Client := ⟨[rEx], [pcEx], none⟩

/-- A concrete client whose additional context has an abstract syntax
distinct from its request's. -/
def clientW : Client := ⟨[⟨1, .store "a" "t"⟩], [⟨2, "b", ["u"]⟩], none⟩

/-- The value `clientW.send` evaluates to: the request yields context 1
for abstract syntax a, the additional context allocates context 3 for
abstract syntax b. -/
def sendOutW : SendOk :=
  ⟨⟨[⟨1, .store "a" "t"⟩], [⟨2, "b", ["u"]⟩], some 0⟩,
    ⟨"AA", "BB", [⟨1, "a", ["t"]⟩, ⟨3, "b", ["u"]⟩]⟩,
    "h", 104, 0, .sendAssociationReleaseRequest⟩

end Dcm

namespace Dcm

theorem addTransferSyntax_abstractSyntaxUid (pc : PresentationContext) (ts : String) :
    (pc.addTransferSyntax ts).abstractSyntaxUid = pc.abstractSyntaxUid := by
  unfold PresentationContext.addTransferSyntax
  split <;> rfl

theorem addTransferSyntax_id (pc : PresentationContext) (ts : String) :
    (pc.addTransferSyntax ts).id = pc.id := by
  unfold PresentationContext.addTransferSyntax
  split <;> rfl

theorem addTransferSyntax_of_mem {pc : PresentationContext} {ts : String}
    (h : ts ∈ pc.transferSyntaxUids) : pc.addTransferSyntax ts = pc := by
  unfold PresentationContext.addTransferSyntax
  simp [h]

theorem mem_addTransferSyntax_self (pc : PresentationContext) (ts : String) :
    ts ∈ (pc.addTransferSyntax ts).transferSyntaxUids := by
  unfold PresentationContext.addTransferSyntax
  split
  · assumption
  · simp

theorem mem_addTransferSyntax_of_mem {pc : PresentationContext} {t : String} (ts : String)
    (h : t ∈ pc.transferSyntaxUids) : t ∈ (pc.addTransferSyntax ts).transferSyntaxUids := by
  unfold PresentationContext.addTransferSyntax
  split
  · exact h
  · exact List.mem_append_left _ h

theorem update_abstractSyntaxUid (pc : PresentationContext) (pcId : Nat) (ts : String) :
    (if pc.id == pcId then pc.addTransferSyntax ts else pc).abstractSyntaxUid
      = pc.abstractSyntaxUid := by
  split
  · exact addTransferSyntax_abstractSyntaxUid pc ts
  · rfl

theorem find?_contexts_map (l : List PresentationContext) (uid : String) (pcId : Nat)
    (ts : String) :
    (l.map (fun pc => if pc.id == pcId then pc.addTransferSyntax ts else pc)).find?
        (fun pc => pc.abstractSyntaxUid == uid)
      = Option.map (fun pc => if pc.id == pcId then pc.addTransferSyntax ts else pc)
          (l.find? (fun pc => pc.abstractSyntaxUid == uid)) := by
  induction l with
  | nil => rfl
  | cons pc l ih =>
    have hu : ((if pc.id == pcId then pc.addTransferSyntax ts else pc).abstractSyntaxUid == uid)
        = (pc.abstractSyntaxUid == uid) := by rw [update_abstractSyntaxUid]
    cases hb : (pc.abstractSyntaxUid == uid) with
    | true =>
      simp only [List.map_cons, List.find?_cons, hu, hb]
      rfl
    | false => simp only [List.map_cons, List.find?_cons, hu, hb, ih]

theorem findContext_addTS (a : Association) (uid : String) (pcId : Nat) (ts : String) :
    (a.addTransferSyntaxToPresentationContext pcId ts).findContextByAbstractSyntax uid
      = Option.map (fun pc => if pc.id == pcId then pc.addTransferSyntax ts else pc)
          (a.findContextByAbstractSyntax uid) := by
  unfold Association.addTransferSyntaxToPresentationContext Association.findContextByAbstractSyntax
  exact find?_contexts_map a.presentationContexts uid pcId ts

theorem map_uid_addTS (a : Association) (pcId : Nat) (ts : String) :
    (a.addTransferSyntaxToPresentationContext pcId ts).presentationContexts.map
        (fun pc => pc.abstractSyntaxUid)
      = a.presentationContexts.map (fun pc => pc.abstractSyntaxUid) := by
  unfold Association.addTransferSyntaxToPresentationContext
  rw [List.map_map]
  congr 1
  funext pc
  exact update_abstractSyntaxUid pc pcId ts

end Dcm

namespace Dcm

theorem pair_of_found_mem {a : Association} {uid : String} {pc : PresentationContext}
    (ts : String) (h : a.findContextByAbstractSyntax uid = some pc)
    (hts : ts ∈ pc.transferSyntaxUids) :
    a.addPresentationContextPair uid ts = (pc.id, a) := by
  unfold Association.addPresentationContextPair
  rw [h]
  simp [hts]

theorem pair_of_found_not_mem {a : Association} {uid : String} {pc : PresentationContext}
    (ts : String) (h : a.findContextByAbstractSyntax uid = some pc)
    (hts : ts ∉ pc.transferSyntaxUids) :
    a.addPresentationContextPair uid ts
      = (pc.id, a.addTransferSyntaxToPresentationContext pc.id ts) := by
  unfold Association.addPresentationContextPair
  rw [h]
  simp [hts]

theorem pair_of_not_found {a : Association} {uid : String} (ts : String)
    (h : a.findContextByAbstractSyntax uid = none) :
    a.addPresentationContextPair uid ts
      = (a.nextPcId,
         (a.addPresentationContext uid).2.addTransferSyntaxToPresentationContext a.nextPcId ts) := by
  unfold Association.addPresentationContextPair
  rw [h]
  rfl

theorem findContext_addPC_of_some {a : Association} {uid : String} {pc : PresentationContext}
    (uid2 : String) (h : a.findContextByAbstractSyntax uid = some pc) :
    (a.addPresentationContext uid2).2.findContextByAbstractSyntax uid = some pc := by
  unfold Association.findContextByAbstractSyntax Association.addPresentationContext at *
  rw [List.find?_append, h]
  rfl

theorem findContext_addPC_self {a : Association} {uid : String}
    (h : a.findContextByAbstractSyntax uid = none) :
    (a.addPresentationContext uid).2.findContextByAbstractSyntax uid
      = some ⟨a.nextPcId, uid, []⟩ := by
  unfold Association.findContextByAbstractSyntax Association.addPresentationContext at *
  rw [List.find?_append, h]
  simp

theorem pair_result_find (a : Association) (uid ts : String) :
    ∃ pc, (a.addPresentationContextPair uid ts).2.findContextByAbstractSyntax uid = some pc
      ∧ pc.id = (a.addPresentationContextPair uid ts).1
      ∧ ts ∈ pc.transferSyntaxUids := by
  cases h : a.findContextByAbstractSyntax uid with
  | some pc0 =>
    by_cases hts : ts ∈ pc0.transferSyntaxUids
    · rw [pair_of_found_mem ts h hts]
      exact ⟨pc0, h, rfl, hts⟩
    · rw [pair_of_found_not_mem ts h hts]
      refine ⟨pc0.addTransferSyntax ts, ?_, addTransferSyntax_id pc0 ts, mem_addTransferSyntax_self pc0 ts⟩
      rw [findContext_addTS, h]
      simp
  | none =>
    rw [pair_of_not_found ts h]
    refine ⟨PresentationContext.mk a.nextPcId uid [ts], ?_, rfl, by simp⟩
    rw [findContext_addTS, findContext_addPC_self h]
    show some (if (a.nextPcId == a.nextPcId) = true then _ else _) = _
    simp [PresentationContext.addTransferSyntax]

theorem pair_of_found (a : Association) {uid : String} {pc : PresentationContext} (ts : String)
    (h : a.findContextByAbstractSyntax uid = some pc) :
    (a.addPresentationContextPair uid ts).1 = pc.id
    ∧ (a.addPresentationContextPair uid ts).2.findContextByAbstractSyntax uid
        = some (pc.addTransferSyntax ts) := by
  by_cases hts : ts ∈ pc.transferSyntaxUids
  · rw [pair_of_found_mem ts h hts, addTransferSyntax_of_mem hts]
    exact ⟨rfl, h⟩
  · rw [pair_of_found_not_mem ts h hts]
    refine ⟨rfl, ?_⟩
    rw [findContext_addTS, h]
    simp

end Dcm

namespace Dcm

theorem findContext_eq_none {a : Association} {uid : String}
    (h : uid ∉ a.presentationContexts.map (fun pc => pc.abstractSyntaxUid)) :
    a.findContextByAbstractSyntax uid = none := by
  unfold Association.findContextByAbstractSyntax
  rw [List.find?_eq_none]
  intro pc hpc
  simp only [beq_iff_eq]
  intro he
  exact h (List.mem_map.mpr ⟨pc, hpc, he⟩)

theorem map_uid_pair_not_found {a : Association} {uid : String} (ts : String)
    (h : a.findContextByAbstractSyntax uid = none) :
    (a.addPresentationContextPair uid ts).2.presentationContexts.map
        (fun pc => pc.abstractSyntaxUid)
      = a.presentationContexts.map (fun pc => pc.abstractSyntaxUid) ++ [uid] := by
  rw [pair_of_not_found ts h, map_uid_addTS]
  unfold Association.addPresentationContext
  simp

theorem map_uid_foldl_registry (ts : String) (reg : List String) :
    ∀ (a : Association), reg.Nodup →
    (∀ u ∈ reg, u ∉ a.presentationContexts.map (fun pc => pc.abstractSyntaxUid)) →
    (reg.foldl (fun acc sc => (acc.addPresentationContextPair sc ts).2) a).presentationContexts.map
        (fun pc => pc.abstractSyntaxUid)
      = a.presentationContexts.map (fun pc => pc.abstractSyntaxUid) ++ reg := by
  induction reg with
  | nil => intro a _ _; simp
  | cons u reg ih =>
    intro a hnd hfresh
    rw [List.foldl_cons]
    have hu : u ∉ a.presentationContexts.map (fun pc => pc.abstractSyntaxUid) :=
      hfresh u (List.mem_cons_self u reg)
    have h1 := map_uid_pair_not_found ts (findContext_eq_none hu)
    rw [ih _ (List.Nodup.of_cons hnd) ?fresh, h1]
    · simp
    case fresh =>
      intro v hv
      rw [h1]
      simp only [List.mem_append, List.mem_singleton]
      rintro (hva | hvu)
      · exact hfresh v (List.mem_cons_of_mem _ hv) hva
      · exact (List.nodup_cons.mp hnd).1 (hvu ▸ hv)

theorem findContext_foldl_addTS (tss : List String) :
    ∀ (a : Association) (uid : String) (pc : PresentationContext) (pcId : Nat),
    a.findContextByAbstractSyntax uid = some pc →
    ∃ pc2, (tss.foldl (fun a2 ts => a2.addTransferSyntaxToPresentationContext pcId ts)
        a).findContextByAbstractSyntax uid = some pc2
      ∧ pc2.id = pc.id
      ∧ (∀ t ∈ pc.transferSyntaxUids, t ∈ pc2.transferSyntaxUids)
      ∧ (pc.id = pcId → ∀ t ∈ tss, t ∈ pc2.transferSyntaxUids) := by
  induction tss with
  | nil =>
    intro a uid pc pcId h
    exact ⟨pc, h, rfl, fun t ht => ht, fun _ t ht => absurd ht (List.not_mem_nil t)⟩
  | cons ts tss ih =>
    intro a uid pc pcId h
    by_cases hpc : pc.id = pcId
    · have h1 : (a.addTransferSyntaxToPresentationContext pcId ts).findContextByAbstractSyntax uid
          = some (pc.addTransferSyntax ts) := by
        rw [findContext_addTS, h]
        simp [hpc]
      obtain ⟨pc2, hf, hid, hsub, hcond⟩ := ih _ _ _ pcId h1
      refine ⟨pc2, hf, ?_, ?_, ?_⟩
      · rw [hid, addTransferSyntax_id]
      · intro t ht
        exact hsub t (mem_addTransferSyntax_of_mem ts ht)
      · intro _ t ht
        rcases List.mem_cons.mp ht with rfl | ht2
        · exact hsub t (mem_addTransferSyntax_self pc t)
        · exact hcond (by rw [addTransferSyntax_id]; exact hpc) t ht2
    · have h1 : (a.addTransferSyntaxToPresentationContext pcId ts).findContextByAbstractSyntax uid
          = some pc := by
        rw [findContext_addTS, h]
        simp [hpc]
      obtain ⟨pc2, hf, hid, hsub, _⟩ := ih _ _ _ pcId h1
      exact ⟨pc2, hf, hid, hsub, fun hc => absurd hc hpc⟩

theorem findContext_addOrGet_self (a : Association) (uid : String) :
    ∃ pc, (a.addOrGetPresentationContext uid).2.findContextByAbstractSyntax uid = some pc
      ∧ pc.id = (a.addOrGetPresentationContext uid).1 := by
  unfold Association.addOrGetPresentationContext
  cases h : a.findContextByAbstractSyntax uid with
  | some pc => exact ⟨pc, h, rfl⟩
  | none => exact ⟨⟨a.nextPcId, uid, []⟩, findContext_addPC_self h, rfl⟩

theorem findContext_addOrGet_of_some {a : Association} {uid : String}
    {pc : PresentationContext} (uid2 : String)
    (h : a.findContextByAbstractSyntax uid = some pc) :
    (a.addOrGetPresentationContext uid2).2.findContextByAbstractSyntax uid = some pc := by
  unfold Association.addOrGetPresentationContext
  cases h2 : a.findContextByAbstractSyntax uid2 with
  | some pc2 => exact h
  | none => exact findContext_addPC_of_some uid2 h

theorem proposeAdditional_spec (a : Association) (ctx : PresentationContextObj) :
    ∃ pc, (a.proposeAdditionalContext ctx).findContextByAbstractSyntax ctx.abstractSyntaxUid
        = some pc
      ∧ ∀ t ∈ ctx.transferSyntaxUids, t ∈ pc.transferSyntaxUids := by
  obtain ⟨pc0, h0, hid⟩ := findContext_addOrGet_self a ctx.abstractSyntaxUid
  obtain ⟨pc2, hf, _, _, hcond⟩ := findContext_foldl_addTS ctx.transferSyntaxUids _ _ pc0
    (a.addOrGetPresentationContext ctx.abstractSyntaxUid).1 h0
  exact ⟨pc2, hf, hcond hid⟩

theorem proposeAdditional_preserves {a : Association} {uid : String}
    {pc : PresentationContext} (ctx : PresentationContextObj)
    (h : a.findContextByAbstractSyntax uid = some pc) :
    ∃ pc2, (a.proposeAdditionalContext ctx).findContextByAbstractSyntax uid = some pc2
      ∧ ∀ t ∈ pc.transferSyntaxUids, t ∈ pc2.transferSyntaxUids := by
  have h1 := findContext_addOrGet_of_some ctx.abstractSyntaxUid h
  obtain ⟨pc2, hf, _, hsub, _⟩ := findContext_foldl_addTS ctx.transferSyntaxUids _ _ pc
    (a.addOrGetPresentationContext ctx.abstractSyntaxUid).1 h1
  exact ⟨pc2, hf, hsub⟩

theorem foldl_proposeAdditional_preserves (rest : List PresentationContextObj) :
    ∀ (a : Association) (uid : String) (pc : PresentationContext),
    a.findContextByAbstractSyntax uid = some pc →
    ∃ pc2, (rest.foldl Association.proposeAdditionalContext a).findContextByAbstractSyntax uid
        = some pc2
      ∧ ∀ t ∈ pc.transferSyntaxUids, t ∈ pc2.transferSyntaxUids := by
  induction rest with
  | nil => intro a uid pc h; exact ⟨pc, h, fun t ht => ht⟩
  | cons c0 rest ih =>
    intro a uid pc h
    rw [List.foldl_cons]
    obtain ⟨pc1, hf1, hsub1⟩ := proposeAdditional_preserves c0 h
    obtain ⟨pc2, hf2, hsub2⟩ := ih _ _ _ hf1
    exact ⟨pc2, hf2, fun t ht => hsub2 t (hsub1 t ht)⟩

theorem foldl_proposeAdditional_mem (additional : List PresentationContextObj) :
    ∀ (a : Association) (ctx : PresentationContextObj), ctx ∈ additional →
    ∃ pc, (additional.foldl Association.proposeAdditionalContext a).findContextByAbstractSyntax
        ctx.abstractSyntaxUid = some pc
      ∧ ∀ t ∈ ctx.transferSyntaxUids, t ∈ pc.transferSyntaxUids := by
  induction additional with
  | nil => intro a ctx h; exact absurd h (List.not_mem_nil ctx)
  | cons c0 rest ih =>
    intro a ctx hctx
    rw [List.foldl_cons]
    rcases List.mem_cons.mp hctx with rfl | hmem
    · obtain ⟨pc, hf, hall⟩ := proposeAdditional_spec a ctx
      obtain ⟨pc2, hf2, hsub⟩ := foldl_proposeAdditional_preserves rest _ _ _ hf
      exact ⟨pc2, hf2, fun t ht => hsub t (hall t ht)⟩
    · exact ih _ ctx hmem

end Dcm

namespace Dcm


theorem store_of_found {a : Association} {uid ts : String} {pc : PresentationContext}
    (registry : List String) (h : a.findContextForStore uid ts = some pc) :
    a.addPresentationContextFromRequest registry (Request.store uid ts) = (pc.id, a) := by
  simp only [Association.addPresentationContextFromRequest]
  rw [h]

theorem store_of_not_found {a : Association} {uid ts : String} (registry : List String)
    (h : a.findContextForStore uid ts = none) :
    a.addPresentationContextFromRequest registry (Request.store uid ts)
      = (a.nextPcId,
         (a.addPresentationContext uid).2.addTransferSyntaxToPresentationContext a.nextPcId ts) := by
  simp only [Association.addPresentationContextFromRequest]
  rw [h]
  rfl

theorem storeAlloc_contexts (a : Association) (uid ts : String) :
    ((a.addPresentationContext uid).2.addTransferSyntaxToPresentationContext
        a.nextPcId ts).presentationContexts
      = a.presentationContexts.map
          (fun pc => if pc.id == a.nextPcId then pc.addTransferSyntax ts else pc)
        ++ [⟨a.nextPcId, uid, [ts]⟩] := by
  simp only [Association.addPresentationContext,
    Association.addTransferSyntaxToPresentationContext, List.map_append]
  simp [PresentationContext.addTransferSyntax]

theorem find?_store_eq_none_of_fresh {l : List PresentationContext} {uid : String}
    (tsq : String) (h : ∀ pc ∈ l, pc.abstractSyntaxUid ≠ uid) :
    l.find? (fun pc => pc.abstractSyntaxUid == uid && pc.transferSyntaxUids.contains tsq)
      = none := by
  rw [List.find?_eq_none]
  intro pc hpc
  simp [h pc hpc]

theorem findContextForStore_eq_none_of_fresh {a : Association} {uid : String} (tsq : String)
    (h : ∀ pc ∈ a.presentationContexts, pc.abstractSyntaxUid ≠ uid) :
    a.findContextForStore uid tsq = none :=
  find?_store_eq_none_of_fresh tsq h

theorem find?_store_map_none_or_id (n : Nat) (uid ts : String) :
    ∀ (l : List PresentationContext),
    l.find? (fun pc => pc.abstractSyntaxUid == uid && pc.transferSyntaxUids.contains ts)
        = none →
    (l.map (fun pc => if pc.id == n then pc.addTransferSyntax ts else pc)).find?
        (fun pc => pc.abstractSyntaxUid == uid && pc.transferSyntaxUids.contains ts) = none
    ∨ ∃ pc, (l.map (fun pc => if pc.id == n then pc.addTransferSyntax ts else pc)).find?
          (fun pc => pc.abstractSyntaxUid == uid && pc.transferSyntaxUids.contains ts)
            = some pc
        ∧ pc.id = n := by
  intro l
  induction l with
  | nil => intro _; exact Or.inl rfl
  | cons pc l ih =>
    intro h
    have hall := List.find?_eq_none.mp h
    have hpcf : (pc.abstractSyntaxUid == uid && pc.transferSyntaxUids.contains ts) = false :=
      Bool.eq_false_iff.mpr (hall pc (List.mem_cons_self pc l))
    have hl : l.find?
        (fun pc => pc.abstractSyntaxUid == uid && pc.transferSyntaxUids.contains ts)
          = none :=
      List.find?_eq_none.mpr (fun x hx => hall x (List.mem_cons_of_mem pc hx))
    simp only [List.map_cons]
    by_cases hn : pc.id = n
    · have hcond : (pc.id == n) = true := by rw [hn]; exact beq_self_eq_true n
      rw [if_pos hcond]
      cases hc : ((pc.addTransferSyntax ts).abstractSyntaxUid == uid
          && (pc.addTransferSyntax ts).transferSyntaxUids.contains ts) with
      | true =>
        refine Or.inr ⟨pc.addTransferSyntax ts, ?_, by rw [addTransferSyntax_id]; exact hn⟩
        simp only [List.find?_cons, hc]
      | false =>
        simp only [List.find?_cons, hc]
        exact ih hl
    · have hcond : ¬ (pc.id == n) = true := by
        rw [beq_iff_eq]
        exact hn
      rw [if_neg hcond]
      simp only [List.find?_cons, hpcf]
      exact ih hl

theorem store_result_find (registry : List String) (a : Association) (uid ts : String) :
    ∃ pc, (a.addPresentationContextFromRequest registry
        (Request.store uid ts)).2.findContextForStore uid ts = some pc
      ∧ pc.id = (a.addPresentationContextFromRequest registry (Request.store uid ts)).1 := by
  cases h : a.findContextForStore uid ts with
  | some pc0 =>
    rw [store_of_found registry h]
    exact ⟨pc0, h, rfl⟩
  | none =>
    rw [store_of_not_found registry h]
    show ∃ pc, ((a.addPresentationContext uid).2.addTransferSyntaxToPresentationContext
        a.nextPcId ts).findContextForStore uid ts = some pc ∧ pc.id = a.nextPcId
    have hl : a.presentationContexts.find?
        (fun pc => pc.abstractSyntaxUid == uid && pc.transferSyntaxUids.contains ts)
          = none := h
    unfold Association.findContextForStore
    rw [storeAlloc_contexts, List.find?_append]
    rcases find?_store_map_none_or_id a.nextPcId uid ts a.presentationContexts hl with
      hnone | ⟨pcX, hfX, hidX⟩
    · rw [hnone]
      refine ⟨⟨a.nextPcId, uid, [ts]⟩, ?_, rfl⟩
      simp [List.find?_cons]
    · rw [hfX]
      exact ⟨pcX, rfl, hidX⟩

/-- Claim C1 counterexample: mirroring the repository's frozen C-STORE
test (src lines 265-306), two CT Image Storage store requests — the
first with the Implicit VR Little Endian dataset transfer syntax, the
second with JPEG 2000 Lossless — do NOT share a presentation-context
id: the first call returns id 1, the second allocates a new context and
returns id 3, and the association ends with two separate contexts each
proposing only its own transfer syntax.  This refutes the claim that
the two requests get the same id with both transfer syntaxes merged
into one context (the test asserts exactly this non-merge:
pcId3 is not pcId4, three contexts at line 303). -/
theorem store_new_transfer_syntax_counterexample :
    ((Association.init "CALLINGAET" "CALLEDAET").addPresentationContextFromRequest []
        (Request.store "1.2.840.10008.5.1.4.1.1.2" "1.2.840.10008.1.2")).1 = 1
    ∧ (((Association.init "CALLINGAET" "CALLEDAET").addPresentationContextFromRequest []
        (Request.store "1.2.840.10008.5.1.4.1.1.2" "1.2.840.10008.1.2")).2.addPresentationContextFromRequest
        [] (Request.store "1.2.840.10008.5.1.4.1.1.2" "1.2.840.10008.1.2.4.90")).1 = 3
    ∧ (((Association.init "CALLINGAET" "CALLEDAET").addPresentationContextFromRequest []
        (Request.store "1.2.840.10008.5.1.4.1.1.2" "1.2.840.10008.1.2")).2.addPresentationContextFromRequest
        [] (Request.store "1.2.840.10008.5.1.4.1.1.2" "1.2.840.10008.1.2.4.90")).2.presentationContexts
      = [⟨1, "1.2.840.10008.5.1.4.1.1.2", ["1.2.840.10008.1.2"]⟩,
         ⟨3, "1.2.840.10008.5.1.4.1.1.2", ["1.2.840.10008.1.2.4.90"]⟩] :=
  ⟨rfl, rfl, rfl⟩

/-- Claim C1 (amended): against an association holding no presentation
context for the given abstract syntax, two store requests sharing that
abstract syntax but carrying different dataset transfer syntaxes
receive DIFFERENT presentation-context ids — the first allocates the
next odd id, the second the one after — and afterwards the association
holds two separate contexts for that abstract syntax, the first
proposing exactly the first transfer syntax and the second exactly the
second; the transfer syntaxes are never merged into a single context
(per the C-STORE test, contradicting the spec's merge rule). -/
theorem store_new_transfer_syntax_allocates_new_context (registry : List String)
    (a : Association) (uid ts1 ts2 : String) (hts : ts1 ≠ ts2)
    (hfresh : ∀ pc ∈ a.presentationContexts, pc.abstractSyntaxUid ≠ uid) :
    (a.addPresentationContextFromRequest registry (Request.store uid ts1)).1 = a.nextPcId
    ∧ ((a.addPresentationContextFromRequest registry (Request.store uid ts1)).2.addPresentationContextFromRequest
        registry (Request.store uid ts2)).1 = a.nextPcId + 2
    ∧ ((a.addPresentationContextFromRequest registry (Request.store uid ts1)).2.addPresentationContextFromRequest
        registry (Request.store uid ts2)).2.presentationContexts.filter
          (fun pc => pc.abstractSyntaxUid == uid)
      = [⟨a.nextPcId, uid, [ts1]⟩, ⟨a.nextPcId + 2, uid, [ts2]⟩] := by
  have h0 : a.findContextForStore uid ts1 = none :=
    findContextForStore_eq_none_of_fresh ts1 hfresh
  have hA1 := storeAlloc_contexts a uid ts1
  have hmfresh : ∀ pc ∈ a.presentationContexts.map
      (fun pc => if pc.id == a.nextPcId then pc.addTransferSyntax ts1 else pc),
      pc.abstractSyntaxUid ≠ uid := by
    intro x hx
    obtain ⟨pc, hpc, rfl⟩ := List.mem_map.mp hx
    rw [update_abstractSyntaxUid]
    exact hfresh pc hpc
  have h1 : ((a.addPresentationContext uid).2.addTransferSyntaxToPresentationContext
      a.nextPcId ts1).findContextForStore uid ts2 = none := by
    unfold Association.findContextForStore
    rw [hA1, List.find?_append, find?_store_eq_none_of_fresh ts2 hmfresh]
    have hd : (decide (ts2 = ts1)) = false := decide_eq_false (Ne.symm hts)
    simp [List.find?_cons, hd]
  have hlen := congrArg List.length hA1
  simp only [List.length_append, List.length_map, List.length_singleton] at hlen
  have hnext : ((a.addPresentationContext uid).2.addTransferSyntaxToPresentationContext
      a.nextPcId ts1).nextPcId = a.nextPcId + 2 := by
    show 2 * ((a.addPresentationContext uid).2.addTransferSyntaxToPresentationContext
        a.nextPcId ts1).presentationContexts.length + 1
      = 2 * a.presentationContexts.length + 1 + 2
    rw [hlen]
    omega
  rw [store_of_not_found registry h0]
  refine ⟨rfl, ?_, ?_⟩
  · show ((((a.addPresentationContext uid).2.addTransferSyntaxToPresentationContext
        a.nextPcId ts1)).addPresentationContextFromRequest registry
        (Request.store uid ts2)).1 = a.nextPcId + 2
    rw [store_of_not_found registry h1]
    exact hnext
  · show ((((a.addPresentationContext uid).2.addTransferSyntaxToPresentationContext
        a.nextPcId ts1)).addPresentationContextFromRequest registry
        (Request.store uid ts2)).2.presentationContexts.filter
          (fun pc => pc.abstractSyntaxUid == uid)
      = [⟨a.nextPcId, uid, [ts1]⟩, ⟨a.nextPcId + 2, uid, [ts2]⟩]
    rw [store_of_not_found registry h1]
    show (((((a.addPresentationContext uid).2.addTransferSyntaxToPresentationContext
        a.nextPcId ts1)).addPresentationContext uid).2.addTransferSyntaxToPresentationContext
        ((a.addPresentationContext uid).2.addTransferSyntaxToPresentationContext
          a.nextPcId ts1).nextPcId ts2).presentationContexts.filter
          (fun pc => pc.abstractSyntaxUid == uid)
      = [⟨a.nextPcId, uid, [ts1]⟩, ⟨a.nextPcId + 2, uid, [ts2]⟩]
    rw [storeAlloc_contexts, hnext, hA1]
    rw [List.map_append, List.filter_append, List.filter_append]
    have hfilter1 : ((a.presentationContexts.map
        (fun pc => if pc.id == a.nextPcId then pc.addTransferSyntax ts1 else pc)).map
          (fun pc => if pc.id == a.nextPcId + 2 then pc.addTransferSyntax ts2 else pc)).filter
            (fun pc => pc.abstractSyntaxUid == uid) = [] := by
      rw [List.filter_eq_nil_iff]
      intro x hx
      obtain ⟨y, hy, rfl⟩ := List.mem_map.mp hx
      have huid : (if y.id == a.nextPcId + 2 then y.addTransferSyntax ts2 else y).abstractSyntaxUid
          = y.abstractSyntaxUid := update_abstractSyntaxUid y (a.nextPcId + 2) ts2
      rw [huid]
      simp [hmfresh y hy]
    have hne12 : ((a.nextPcId : Nat) == a.nextPcId + 2) = false :=
      beq_eq_false_iff_ne.mpr (by omega)
    rw [hfilter1]
    simp [hne12]

/-- Witness for the amended C1 at a concrete empty association. -/
theorem store_new_transfer_syntax_allocates_new_context_witness :
    ("t1" : String) ≠ "t2"
    ∧ (∀ pc ∈ (Association.init "A" "B").presentationContexts, pc.abstractSyntaxUid ≠ "u")
    ∧ (((Association.init "A" "B").addPresentationContextFromRequest []
          (Request.store "u" "t1")).1 = 1
      ∧ (((Association.init "A" "B").addPresentationContextFromRequest []
          (Request.store "u" "t1")).2.addPresentationContextFromRequest
          [] (Request.store "u" "t2")).1 = 3
      ∧ (((Association.init "A" "B").addPresentationContextFromRequest []
          (Request.store "u" "t1")).2.addPresentationContextFromRequest
          [] (Request.store "u" "t2")).2.presentationContexts.filter
            (fun pc => pc.abstractSyntaxUid == "u")
        = [⟨1, "u", ["t1"]⟩, ⟨3, "u", ["t2"]⟩]) :=
  ⟨by decide, by decide,
    store_new_transfer_syntax_allocates_new_context [] (Association.init "A" "B")
      "u" "t1" "t2" (by decide) (by decide)⟩

/-- Claim C3: calling `addPresentationContextFromRequest` twice with two
requests sharing the same abstract syntax UID and the same requested
transfer syntax returns the same context id both times and does not
create a new presentation context on the second call (the association
is unchanged). -/
theorem fromRequest_idempotent_same_pair (registry : List String) (a : Association)
    (uid ts : String) :
    ((a.addPresentationContextFromRequest registry (Request.store uid ts)).2.addPresentationContextFromRequest
        registry (Request.store uid ts)).1
      = (a.addPresentationContextFromRequest registry (Request.store uid ts)).1
    ∧ ((a.addPresentationContextFromRequest registry (Request.store uid ts)).2.addPresentationContextFromRequest
        registry (Request.store uid ts)).2
      = (a.addPresentationContextFromRequest registry (Request.store uid ts)).2 := by
  obtain ⟨pc2, hf, hid⟩ := store_result_find registry a uid ts
  rw [store_of_found registry hf]
  exact ⟨hid, rfl⟩

/-- Claim C2: a retrieve-style (C-GET) request against an empty
association produces exactly one presentation context per registered
storage class plus one, and the abstract syntax UIDs are, as a set,
exactly the storage classes plus the request's own query/retrieve
model UID. -/
theorem retrieve_expands_to_storage_classes (registry : List String)
    (calling called m ts : String) (hnd : registry.Nodup) (hm : m ∉ registry) :
    (((Association.init calling called).addPresentationContextFromRequest registry
        (Request.retrieve m ts)).2.presentationContexts.length = registry.length + 1)
    ∧ ∀ u, u ∈ ((Association.init calling called).addPresentationContextFromRequest registry
          (Request.retrieve m ts)).2.presentationContexts.map (fun pc => pc.abstractSyntaxUid)
        ↔ (u ∈ registry ∨ u = m) := by
  simp only [Association.addPresentationContextFromRequest]
  have hfold2 : (registry.foldl (fun acc sc => (acc.addPresentationContextPair sc ts).2)
      (Association.init calling called)).presentationContexts.map
        (fun pc => pc.abstractSyntaxUid) = registry := by
    rw [map_uid_foldl_registry ts registry (Association.init calling called) hnd
      (by intro u hu; simp [Association.init])]
    simp [Association.init]
  have hnone : (registry.foldl (fun acc sc => (acc.addPresentationContextPair sc ts).2)
      (Association.init calling called)).findContextByAbstractSyntax m = none :=
    findContext_eq_none (by rw [hfold2]; exact hm)
  have hmap := map_uid_pair_not_found ts hnone
  rw [hfold2] at hmap
  constructor
  · have hlen := congrArg List.length hmap
    simpa using hlen
  · intro u
    rw [hmap]
    simp

/-- Witness for C2 at a concrete two-element registry. -/
theorem retrieve_expands_to_storage_classes_witness :
    (["sa", "sb"] : List String).Nodup ∧ ("m" : String) ∉ (["sa", "sb"] : List String)
    ∧ ((((Association.init "A" "B").addPresentationContextFromRequest ["sa", "sb"]
          (Request.retrieve "m" "t")).2.presentationContexts.length = 3)
      ∧ ∀ u, u ∈ ((Association.init "A" "B").addPresentationContextFromRequest ["sa", "sb"]
            (Request.retrieve "m" "t")).2.presentationContexts.map
              (fun pc => pc.abstractSyntaxUid)
          ↔ (u ∈ (["sa", "sb"] : List String) ∨ u = "m")) := by
  refine ⟨by decide, by decide, ?_⟩
  have h := retrieve_expands_to_storage_classes ["sa", "sb"] "A" "B" "m" "t"
    (by decide) (by decide)
  simpa using h

/-- Claim C5: for every association and every id held by none of its
presentation contexts, `getPresentationContext` fails with the
not-found error. -/
theorem getPresentationContext_not_found (a : Association) (pcId : Nat)
    (h : ∀ pc ∈ a.presentationContexts, pc.id ≠ pcId) :
    a.getPresentationContext pcId = Except.error "NotFoundError" := by
  unfold Association.getPresentationContext
  have hn : a.presentationContexts.find? (fun pc => pc.id == pcId) = none := by
    rw [List.find?_eq_none]
    intro pc hpc
    simpa using h pc hpc
  rw [hn]

/-- Witness for C5: an association holding only context id 1 rejects a
lookup of id 3. -/
theorem getPresentationContext_not_found_witness :
    (∀ pc ∈ (Association.mk "A" "B" [⟨1, "u", ["t"]⟩]).presentationContexts, pc.id ≠ 3)
    ∧ (Association.mk "A" "B" [⟨1, "u", ["t"]⟩]).getPresentationContext 3
        = Except.error "NotFoundError" :=
  ⟨by decide, getPresentationContext_not_found (Association.mk "A" "B" [⟨1, "u", ["t"]⟩]) 3
      (by decide)⟩

end Dcm

namespace Dcm

theorem send_ok_spec {registry : List String} {c : Client} {host : String} {port : Nat}
    {aet1 aet2 : String} {opts : SendOpts} {out : SendOk}
    (h : Client.send registry c host port aet1 aet2 opts = Except.ok out) :
    out.client = { c with associationLingerTimeout := some (jsOrZero opts.associationLingerTimeout) }
    ∧ out.association = c.additionalPresentationContexts.foldl
        Association.proposeAdditionalContext
        (c.requests.foldl
          (fun acc r => (acc.addPresentationContextFromRequest registry r.req).2)
          (Association.init aet1 aet2))
    ∧ out.connectHost = host ∧ out.connectPort = port
    ∧ out.doneLingerDelay = jsOrZero opts.associationLingerTimeout
    ∧ out.doneAction = NetAction.sendAssociationReleaseRequest := by
  simp only [Client.send] at h
  split at h
  · simp at h
  · rw [Except.ok.injEq] at h
    subst h
    exact ⟨rfl, rfl, rfl, rfl, rfl, rfl⟩

/-- Claim C4 counterexample: a client whose single additional
presentation context shares its abstract syntax with the queued store
request.  `send` does not allocate a new context for it: the built
association holds exactly one presentation context, into which the
additional transfer syntax was merged — refuting the claim that
caller-declared additional contexts are always proposed via a newly
allocated context and never merged. -/
theorem send_additional_context_merged_counterexample :
    (Client.send [] clientEx "HOST" 104 "CALLING" "CALLED"
        ⟨none, none, none, none⟩).map (fun out => out.association.presentationContexts)
      = Except.ok [⟨1, "1.2.840.10008.5.1.4.1.1.2",
          ["1.2.840.10008.1.2", "1.2.840.10008.1.2.1"]⟩] :=
  rfl

/-- Claim C4 (amended): every caller-declared additional presentation
context is proposed by send through `addOrGetPresentationContext` — an
existing context with the same abstract syntax is reused (merged into)
when present, otherwise a new one is allocated — and afterwards every
transfer syntax of the additional context appears in the association
context carrying its abstract syntax. -/
theorem send_proposes_additional_context_via_addOrGet (registry : List String) (c : Client)
    (host : String) (port : Nat) (aet1 aet2 : String) (opts : SendOpts) (out : SendOk)
    (h : Client.send registry c host port aet1 aet2 opts = Except.ok out) :
    ∀ ctx ∈ c.additionalPresentationContexts, ∃ pc,
      out.association.findContextByAbstractSyntax ctx.abstractSyntaxUid = some pc
      ∧ ∀ t ∈ ctx.transferSyntaxUids, t ∈ pc.transferSyntaxUids := by
  obtain ⟨-, hassoc, -, -, -, -⟩ := send_ok_spec h
  intro ctx hctx
  rw [hassoc]
  exact foldl_proposeAdditional_mem c.additionalPresentationContexts _ ctx hctx

/-- Witness for the amended C4 at a concrete client. -/
theorem send_proposes_additional_context_via_addOrGet_witness :
    Client.send [] clientW "h" 104 "AA" "BB" ⟨none, none, none, none⟩ = Except.ok sendOutW
    ∧ (⟨2, "b", ["u"]⟩ : PresentationContextObj) ∈ clientW.additionalPresentationContexts
    ∧ ∃ pc, sendOutW.association.findContextByAbstractSyntax "b" = some pc
        ∧ ∀ t ∈ (["u"] : List String), t ∈ pc.transferSyntaxUids := by
  refine ⟨rfl, by decide, ?_⟩
  have h := send_proposes_additional_context_via_addOrGet [] clientW "h" 104 "AA" "BB"
    ⟨none, none, none, none⟩ sendOutW rfl ⟨2, "b", ["u"]⟩ (by decide)
  simpa using h

/-- Claim C6: when the request queue is empty, `send` raises the error
synchronously to the caller — the model returns `Except.error` before
any association is built or network action produced, so the error can
never surface as a network event. -/
theorem send_empty_queue_throws (registry : List String) (c : Client) (host : String)
    (port : Nat) (aet1 aet2 : String) (opts : SendOpts) (h : c.requests = []) :
    Client.send registry c host port aet1 aet2 opts
      = Except.error (JsError.thrownError "There are no requests to perform.") := by
  simp [Client.send, h]

/-- Witness for C6: a fresh client has no requests and send throws. -/
theorem send_empty_queue_throws_witness :
    Client.new.requests = []
    ∧ Client.send [] Client.new "h" 104 "AA" "BB" ⟨none, none, none, none⟩
        = Except.error (JsError.thrownError "There are no requests to perform.") :=
  ⟨rfl, send_empty_queue_throws [] Client.new "h" 104 "AA" "BB" ⟨none, none, none, none⟩ rfl⟩

/-- Claim C7 counterexample: registering an already-registered request
object or presentation-context object is NOT an error — both calls
return successfully with the client unchanged, refuting the claim that
duplicate registration raises a usage error. -/
theorem duplicate_registration_silent_counterexample :
    clientEx.addRequest (JsValue.requestInstance rEx) = Except.ok clientEx
    ∧ clientEx.addAdditionalPresentationContext (JsValue.contextInstance pcEx)
        = Except.ok clientEx :=
  ⟨rfl, rfl⟩

/-- Claim C7 (amended): registering a duplicate request object via
`addRequest`, or a duplicate presentation-context object via
`addAdditionalPresentationContext`, is silently ignored — the call
returns without error and leaves the client unchanged. -/
theorem duplicate_registration_silently_ignored (c : Client) (r : RequestObj)
    (p : PresentationContextObj) (hr : r ∈ c.requests)
    (hp : p ∈ c.additionalPresentationContexts) :
    c.addRequest (JsValue.requestInstance r) = Except.ok c
    ∧ c.addAdditionalPresentationContext (JsValue.contextInstance p) = Except.ok c := by
  constructor
  · simp [Client.addRequest, hr]
  · simp [Client.addAdditionalPresentationContext, hp]

/-- Witness for the amended C7 at a concrete client. -/
theorem duplicate_registration_silently_ignored_witness :
    rEx ∈ clientEx.requests ∧ pcEx ∈ clientEx.additionalPresentationContexts
    ∧ (clientEx.addRequest (JsValue.requestInstance rEx) = Except.ok clientEx
       ∧ clientEx.addAdditionalPresentationContext (JsValue.contextInstance pcEx)
          = Except.ok clientEx) :=
  ⟨by decide, by decide,
    duplicate_registration_silently_ignored clientEx rEx pcEx (by decide) (by decide)⟩

/-- Claim C8: the `done` handler schedules exactly one
association-release request after precisely the configured linger
delay; when `associationLingerTimeout` is 0 or unset the delay is 0
(no linger). -/
theorem send_linger_delay_configured (registry : List String) (c : Client) (host : String)
    (port : Nat) (aet1 aet2 : String) (opts : SendOpts) (out : SendOk)
    (h : Client.send registry c host port aet1 aet2 opts = Except.ok out) :
    out.doneLingerDelay = jsOrZero opts.associationLingerTimeout
    ∧ out.doneAction = NetAction.sendAssociationReleaseRequest
    ∧ out.client.associationLingerTimeout = some (jsOrZero opts.associationLingerTimeout)
    ∧ ((opts.associationLingerTimeout = none ∨ opts.associationLingerTimeout = some 0)
        → out.doneLingerDelay = 0) := by
  obtain ⟨hclient, -, -, -, hdelay, haction⟩ := send_ok_spec h
  refine ⟨hdelay, haction, ?_, ?_⟩
  · rw [hclient]
  · rintro (h0 | h0) <;> rw [hdelay, h0] <;> rfl

/-- Witness for C8 with the linger option unset. -/
theorem send_linger_delay_configured_witness :
    Client.send [] clientW "h" 104 "AA" "BB" ⟨none, none, none, none⟩ = Except.ok sendOutW
    ∧ (sendOutW.doneLingerDelay = jsOrZero none
      ∧ sendOutW.doneAction = NetAction.sendAssociationReleaseRequest
      ∧ sendOutW.client.associationLingerTimeout = some (jsOrZero none)
      ∧ (((none : Option Nat) = none ∨ (none : Option Nat) = some 0)
          → sendOutW.doneLingerDelay = 0)) :=
  ⟨rfl, send_linger_delay_configured [] clientW "h" 104 "AA" "BB"
      ⟨none, none, none, none⟩ sendOutW rfl⟩

/-- Claim C9: calling `addRequest` or
`addAdditionalPresentationContext` on a nullish argument still throws,
but the error is the engine TypeError raised while evaluating
`toString()` on the nullish value inside the guard message, not the
intended is-not-a-request or is-not-a-presentation-context `Error`
(note the distinct `JsError.typeError` constructor). -/
theorem nullish_argument_throws_typeError (c : Client) :
    c.addRequest JsValue.jsNull
      = Except.error (JsError.typeError "Cannot read properties of null, reading toString")
    ∧ c.addRequest JsValue.jsUndefined
      = Except.error (JsError.typeError "Cannot read properties of undefined, reading toString")
    ∧ c.addAdditionalPresentationContext JsValue.jsNull
      = Except.error (JsError.typeError "Cannot read properties of null, reading toString")
    ∧ c.addAdditionalPresentationContext JsValue.jsUndefined
      = Except.error (JsError.typeError "Cannot read properties of undefined, reading toString") :=
  ⟨rfl, rfl, rfl, rfl⟩

/-- Claim C10: a non-throwing `send` leaves the requests list and the
additional-presentation-contexts list unchanged; the only client field
it writes is `associationLingerTimeout`. -/
theorem send_preserves_request_state (registry : List String) (c : Client) (host : String)
    (port : Nat) (aet1 aet2 : String) (opts : SendOpts) (out : SendOk)
    (h : Client.send registry c host port aet1 aet2 opts = Except.ok out) :
    out.client.requests = c.requests
    ∧ out.client.additionalPresentationContexts = c.additionalPresentationContexts
    ∧ out.client
        = { c with associationLingerTimeout := some (jsOrZero opts.associationLingerTimeout) } := by
  obtain ⟨hclient, -, -, -, -, -⟩ := send_ok_spec h
  refine ⟨?_, ?_, hclient⟩ <;> rw [hclient]

/-- Witness for C10 at a concrete client. -/
theorem send_preserves_request_state_witness :
    Client.send [] clientW "h" 104 "AA" "BB" ⟨none, none, none, none⟩ = Except.ok sendOutW
    ∧ (sendOutW.client.requests = clientW.requests
      ∧ sendOutW.client.additionalPresentationContexts = clientW.additionalPresentationContexts
      ∧ sendOutW.client = { clientW with associationLingerTimeout := some (jsOrZero none) }) :=
  ⟨rfl, send_preserves_request_state [] clientW "h" 104 "AA" "BB"
      ⟨none, none, none, none⟩ sendOutW rfl⟩

end Dcm
